import Mathlib

/- Verification of the PCM/WAV audio codec and the remote-service adapters
   of the audio-prevodilac-narator front-end.

   The codec helpers `convertUint8ArrayToInt16Array` and `pcmToWavBlob`
   live in `src/utils/audioUtils.ts`, which is not among the provided
   sources; only their callers (`handleGenerateAudio` in
   src/unnamed/part_000) are.  Those two are modelled from the spec
   (sections 4.2 and 4.3).  Everything else is embedded from the source:
   the WAV-decoding playback path of `handlePlayAudio`
   (src/unnamed/part_000, lines 61-76) and the three service functions of
   src/services/geminiService.ts. -/

namespace AudioApp

/-- Little-endian signed 16-bit reinterpretation of a byte pair: `lo` is
the least-significant byte, `hi` the most-significant; unsigned values at
or above 32768 wrap to negative (twos complement).  This is what
`new Int16Array(buffer)` computes per element in `handlePlayAudio`
(src/unnamed/part_000, line 72). -/
def toInt16 (lo hi : Nat) : Int :=
  if lo + 256 * hi < 32768 then ((lo + 256 * hi : Nat) : Int)
  else ((lo + 256 * hi : Nat) : Int) - 65536

/-- Reinterpretation of a byte sequence as consecutive little-endian
signed 16-bit samples, as `new Int16Array(pcmData)` does in
`handlePlayAudio` (src/unnamed/part_000, line 72). -/
def pairsToSamples : List Nat → List Int
  | [] => []
  | [_] => []
  | lo :: hi :: rest => toInt16 lo hi :: pairsToSamples rest

/-- Modelled from the spec: `convertUint8ArrayToInt16Array` is defined in
`src/utils/audioUtils.ts`, which is missing from the provided sources;
only its caller `handleGenerateAudio` is present.  Spec 4.2: an
even-length RawAudioBytes becomes a PcmBuffer whose sample `i` combines
byte `2i` (least-significant) and byte `2i+1` (most-significant) as a
little-endian twos-complement signed 16-bit integer; an odd-length input
fails with `MalformedAudioError` and produces no partial buffer. -/
def convertUint8ArrayToInt16Array (bytes : List Nat) : Except String (List Int) :=
  if bytes.length % 2 = 1 then Except.error "MalformedAudioError"
  else Except.ok (pairsToSamples bytes)

/-- A sample value as its twos-complement little-endian byte pair. -/
def sampleToBytes (s : Int) : List Nat :=
  [(s % 65536).toNat % 256, (s % 65536).toNat / 256]

/-- The raw data section of a WAV file: each sample of the buffer in
turn, little-endian. -/
def pcmDataBytes : List Int → List Nat
  | [] => []
  | s :: rest => sampleToBytes s ++ pcmDataBytes rest

/-- A 32-bit little-endian header field. -/
def u32le (n : Nat) : List Nat :=
  [n % 256, n / 256 % 256, n / 65536 % 256, n / 16777216 % 256]

/-- A 16-bit little-endian header field. -/
def u16le (n : Nat) : List Nat :=
  [n % 256, n / 256 % 256]

/-- Modelled from the spec (4.3): the fixed 44-byte WAV header.  In
order: the ASCII bytes of RIFF, the total-size field 36 + data size, the
ASCII bytes of WAVE and of the fmt sub-chunk tag, the fmt sub-chunk size
16, audio format 1 (PCM), channel count, sample rate, byte rate, block
align, bits per sample 16, the ASCII bytes of the data tag, and the data
size sampleCount * channelCount * 2.  All fields little-endian. -/
def wavHeader (sampleCount sampleRate channelCount : Nat) : List Nat :=
  [82, 73, 70, 70] ++ u32le (36 + sampleCount * channelCount * 2) ++
  [87, 65, 86, 69] ++ [102, 109, 116, 32] ++ u32le 16 ++ u16le 1 ++
  u16le channelCount ++ u32le sampleRate ++
  u32le (sampleRate * channelCount * 2) ++ u16le (channelCount * 2) ++
  u16le 16 ++ [100, 97, 116, 97] ++
  u32le (sampleCount * channelCount * 2)

/-- Modelled from the spec: the WAV encoder `pcmToWavBlob` is defined in
`src/utils/audioUtils.ts`, which is missing from the provided sources;
only its caller `handleGenerateAudio` is present.  Spec 4.3: the 44-byte
header followed by the little-endian sample data; fails with
`InvalidAudioParametersError` on a non-positive sample rate or channel
count, and has no other failure mode. -/
def encodeWav (P : List Int) (sampleRate channelCount : Nat) :
    Except String (List Nat) :=
  if sampleRate = 0 ∨ channelCount = 0 then
    Except.error "InvalidAudioParametersError"
  else Except.ok (wavHeader P.length sampleRate channelCount ++ pcmDataBytes P)

/-- WAV decoding as `handlePlayAudio` performs it (src/unnamed/part_000,
lines 67-72): skip the fixed 44-byte header, reinterpret the remainder as
little-endian signed 16-bit samples. -/
def decodeWav (bytes : List Nat) : List Int :=
  pairsToSamples (bytes.drop 44)

/-- Spec data model: a PcmSample is a signed 16-bit integer in the
closed range from -32768 to 32767. -/
def isPcmSample (s : Int) : Prop := -32768 ≤ s ∧ s ≤ 32767

instance : DecidablePred isPcmSample := fun s =>
  inferInstanceAs (Decidable (-32768 ≤ s ∧ s ≤ 32767))

/-- Spec data model: a PcmBuffer is a sequence of PcmSample. -/
def isPcmBuffer (P : List Int) : Prop := ∀ s ∈ P, isPcmSample s

instance : DecidablePred isPcmBuffer := fun P =>
  List.decidableBAll isPcmSample P

/-- Playback normalization as in `handlePlayAudio` (src/unnamed/part_000,
line 75): `channelData[i] = pcmInt16[i] / 32768.0`.  For integer samples
of magnitude at most 32768 this floating-point division is exact (the
quotient is the sample scaled by a power of two and has at most 16
significant bits, well within single and double precision), so the
computation is embedded as the exact rational it produces. -/
def normalizeSample (s : Int) : ℚ := (s : ℚ) / 32768

/-- A target language entry, from src/unnamed/part_000 (types). -/
structure Language where
  code : String
  name : String
  englishName : String
deriving DecidableEq

/-- A translation result entry, from src/unnamed/part_000 (types). -/
structure Translation where
  languageCode : String
  languageName : String
  text : String
deriving DecidableEq

/-- One element of the JSON array returned by the translation call,
as requested by the response schema of `translateText`
(src/services/geminiService.ts, lines 44-60). -/
structure ParsedTranslationItem where
  languageCode : String
  translatedText : String
deriving DecidableEq

/-- The per-item mapping step of `translateText`
(src/services/geminiService.ts, lines 66-73): look the returned language
code up among the requested target languages; use the name of the matching entry when found, else fall back to the code itself. -/
def mapTranslationItem (targetLanguages : List Language)
    (item : ParsedTranslationItem) : Translation :=
  match targetLanguages.find? (fun l => l.code == item.languageCode) with
  | some lang =>
      { languageCode := item.languageCode
        languageName := lang.name
        text := item.translatedText }
  | none =>
      { languageCode := item.languageCode
        languageName := item.languageCode
        text := item.translatedText }

/-- The result construction of `translateText`
(src/services/geminiService.ts, line 66): `parsedResponse.map(...)`. -/
def translateTextResults (targetLanguages : List Language)
    (items : List ParsedTranslationItem) : List Translation :=
  items.map (mapTranslationItem targetLanguages)

/-- The inlineData object of a response part, with its optional data
field. -/
structure InlineData where
  data : Option String
deriving DecidableEq

/-- One part of the content of a response candidate. -/
structure ResponsePart where
  inlineData : Option InlineData
deriving DecidableEq

/-- The content of a response candidate. -/
structure Content where
  parts : List ResponsePart
deriving DecidableEq

/-- One candidate of a generate-content response. -/
structure Candidate where
  content : Option Content
deriving DecidableEq

/-- A generate-content response as `generateSpeech` reads it. -/
structure GenContentResponse where
  candidates : List Candidate
deriving DecidableEq

/-- The optional chain
`response.candidates?.[0]?.content?.parts?.[0]?.inlineData?.data` of
`generateSpeech` (src/services/geminiService.ts, line 97). -/
def extractAudioData (r : GenContentResponse) : Option String :=
  ((((r.candidates.head?).bind Candidate.content).bind
      (fun c => c.parts.head?)).bind ResponsePart.inlineData).bind
    InlineData.data

/-- The fixed message of the Error thrown by the catch block of
`generateSpeech` (src/services/geminiService.ts, line 104). -/
def genSpeechFailureMsg : String :=
  "Generisanje glasa nije uspelo. Proverite konzolu za detalje."

/-- The outcome of `generateSpeech` (src/services/geminiService.ts,
lines 82-106) given the outcome of its single service call.  A service
failure is caught by the catch block and replaced by an Error with the
fixed message; a response whose extracted audio field is absent or an
empty string (JavaScript falsiness of `!base64Audio`) triggers a throw
inside the try block that the same catch likewise replaces; otherwise
the base64 payload is returned. -/
def generateSpeech (serviceCall : Except String GenContentResponse) :
    Except String String :=
  match serviceCall with
  | Except.error _ => Except.error genSpeechFailureMsg
  | Except.ok r =>
    match extractAudioData r with
    | none => Except.error genSpeechFailureMsg
    | some s => if s = "" then Except.error genSpeechFailureMsg else Except.ok s

/-- The set of code points removed by the JavaScript string trim method:
ECMAScript WhiteSpace and LineTerminator. -/
def isJsWhitespace (c : Char) : Bool :=
  c = ' ' || c = '\t' || c = '\n' || c = '\r' || c = '\x0b' || c = '\x0c' ||
  c = '\u00a0' || c = '\u1680' || ('\u2000' ≤ c && c ≤ '\u200a') ||
  c = '\u2028' || c = '\u2029' || c = '\u202f' || c = '\u205f' ||
  c = '\u3000' || c = '\ufeff'

/-- The JavaScript string trim method on a character list: remove
leading and trailing whitespace. -/
def jsTrim (cs : List Char) : List Char :=
  ((cs.dropWhile isJsWhitespace).reverse.dropWhile isJsWhitespace).reverse

/-- The successful return of `transcribeAudio`
(src/services/geminiService.ts, line 28): `response.text.trim()`,
given the response text of the service. -/
def transcribeAudio (responseText : String) : String :=
  String.mk (jsTrim responseText.data)

/- Helper lemmas about the byte-pair reinterpretation. -/

theorem toInt16_bytes_of_sample (s : Int)
    (h1 : -32768 ≤ s) (h2 : s ≤ 32767) :
    toInt16 ((s % 65536).toNat % 256) ((s % 65536).toNat / 256) = s := by
  have hm : (s % 65536).toNat % 256 + 256 * ((s % 65536).toNat / 256) =
      (s % 65536).toNat := Nat.mod_add_div _ _
  unfold toInt16
  rw [hm]
  split <;> omega

theorem pairsToSamples_sampleToBytes (s : Int) (rest : List Nat)
    (h1 : -32768 ≤ s) (h2 : s ≤ 32767) :
    pairsToSamples (sampleToBytes s ++ rest) = s :: pairsToSamples rest := by
  show pairsToSamples
      ((s % 65536).toNat % 256 :: (s % 65536).toNat / 256 :: rest) = _
  rw [pairsToSamples, toInt16_bytes_of_sample s h1 h2]

theorem pairsToSamples_pcmDataBytes (P : List Int) (h : isPcmBuffer P) :
    pairsToSamples (pcmDataBytes P) = P := by
  induction P with
  | nil => rfl
  | cons s rest ih =>
    have hs := h s (List.mem_cons_self s rest)
    rw [pcmDataBytes, pairsToSamples_sampleToBytes s _ hs.1 hs.2,
      ih (fun x hx => h x (List.mem_cons_of_mem s hx))]

theorem wavHeader_length (n R C : Nat) : (wavHeader n R C).length = 44 := by
  simp [wavHeader, u32le, u16le]

theorem pairsToSamples_length :
    ∀ bytes : List Nat, (pairsToSamples bytes).length = bytes.length / 2
  | [] => rfl
  | [_] => by simp [pairsToSamples]
  | lo :: hi :: rest => by
    show (toInt16 lo hi :: pairsToSamples rest).length = _
    simp only [List.length_cons, pairsToSamples_length rest]
    omega

theorem pairsToSamples_getD :
    ∀ bytes : List Nat, bytes.length % 2 = 0 → ∀ i : Nat,
      (pairsToSamples bytes).getD i 0 =
        toInt16 (bytes.getD (2 * i) 0) (bytes.getD (2 * i + 1) 0)
  | [], _, i => by simp [pairsToSamples, toInt16]
  | [_], h, _ => by simp at h
  | lo :: hi :: rest, h, 0 => by
    show (toInt16 lo hi :: pairsToSamples rest).getD 0 0 = _
    rfl
  | lo :: hi :: rest, h, (i + 1) => by
    have hr : rest.length % 2 = 0 := by
      simp only [List.length_cons] at h
      omega
    show (pairsToSamples rest).getD i 0 = _
    rw [pairsToSamples_getD rest hr i]
    have e1 : 2 * (i + 1) = 2 * i + 1 + 1 := by omega
    rw [e1]
    simp only [List.getD_cons_succ]

/-- C1: for every PcmBuffer P (a sequence of signed 16-bit PcmSamples),
every sample rate R > 0, and every channel count C > 0, decoding the WAV
container produced by the encoder — skipping the fixed 44-byte header and
reinterpreting the remaining bytes as little-endian signed 16-bit
samples — returns exactly P. -/
theorem decodeWav_encodeWav (P : List Int) (R C : Nat)
    (hR : 0 < R) (hC : 0 < C) (hP : isPcmBuffer P) :
    Except.map decodeWav (encodeWav P R C) = Except.ok P := by
  unfold encodeWav
  rw [if_neg (by omega)]
  show Except.ok (decodeWav _) = _
  unfold decodeWav
  rw [List.drop_left' (wavHeader_length P.length R C),
    pairsToSamples_pcmDataBytes P hP]

/-- Witness for C1 at the buffer [1, -1, 32767, -32768], sample rate
24000 and channel count 1. -/
theorem decodeWav_encodeWav_eval :
    0 < 24000 ∧ 0 < 1 ∧ isPcmBuffer [1, -1, 32767, -32768] ∧
      Except.map decodeWav (encodeWav [1, -1, 32767, -32768] 24000 1) =
        Except.ok [1, -1, 32767, -32768] :=
  ⟨by norm_num, by norm_num, by decide,
    decodeWav_encodeWav [1, -1, 32767, -32768] 24000 1
      (by norm_num) (by norm_num) (by decide)⟩

/-- C2: for every even-length RawAudioBytes input the converter forms
sample i from byte 2i (least-significant) and byte 2i+1
(most-significant) as a little-endian twos-complement signed 16-bit
integer (values at or above 32768 read unsigned wrap to negative); in
particular the byte pair [0xFF, 0xFF] decodes to PcmSample -1 and the
byte pair [0x00, 0x80] decodes to PcmSample -32768. -/
theorem convert_le_twos_complement :
    (∀ bytes : List Nat, bytes.length % 2 = 0 →
      ∃ samples, convertUint8ArrayToInt16Array bytes = Except.ok samples ∧
        ∀ i : Nat, samples.getD i 0 =
          (if bytes.getD (2 * i) 0 + 256 * bytes.getD (2 * i + 1) 0 < 32768
           then ((bytes.getD (2 * i) 0 + 256 * bytes.getD (2 * i + 1) 0 : Nat) : Int)
           else ((bytes.getD (2 * i) 0 + 256 * bytes.getD (2 * i + 1) 0 : Nat) : Int)
             - 65536)) ∧
    convertUint8ArrayToInt16Array [255, 255] = Except.ok [-1] ∧
    convertUint8ArrayToInt16Array [0, 128] = Except.ok [-32768] := by
  refine ⟨?_, rfl, rfl⟩
  intro bytes h
  refine ⟨pairsToSamples bytes, ?_, ?_⟩
  · unfold convertUint8ArrayToInt16Array
    rw [if_neg (by omega)]
  · intro i
    rw [pairsToSamples_getD bytes h i]
    rfl

/-- Witness for C2 at the even-length input [52, 1]. -/
theorem convert_le_twos_complement_eval :
    ∃ samples, convertUint8ArrayToInt16Array [52, 1] = Except.ok samples ∧
      ∀ i : Nat, samples.getD i 0 =
        (if ([52, 1] : List Nat).getD (2 * i) 0 +
              256 * ([52, 1] : List Nat).getD (2 * i + 1) 0 < 32768
         then ((([52, 1] : List Nat).getD (2 * i) 0 +
             256 * ([52, 1] : List Nat).getD (2 * i + 1) 0 : Nat) : Int)
         else ((([52, 1] : List Nat).getD (2 * i) 0 +
             256 * ([52, 1] : List Nat).getD (2 * i + 1) 0 : Nat) : Int) - 65536) :=
  convert_le_twos_complement.1 [52, 1] (by decide)

/-- C5: the WAV encoder is deterministic — two invocations with the same
PcmBuffer, sample rate and channel count produce byte-for-byte identical
outputs. -/
theorem encodeWav_deterministic (P1 P2 : List Int) (r1 r2 c1 c2 : Nat)
    (hP : P1 = P2) (hr : r1 = r2) (hc : c1 = c2) :
    encodeWav P1 r1 c1 = encodeWav P2 r2 c2 := by
  rw [hP, hr, hc]

/-- Witness for C5 at the buffer [1, 2], sample rate 24000, channel
count 1. -/
theorem encodeWav_deterministic_eval :
    encodeWav [1, 2] 24000 1 = encodeWav [1, 2] 24000 1 :=
  encodeWav_deterministic [1, 2] [1, 2] 24000 24000 1 1 rfl rfl rfl

/-- C6: an odd-length input fails with MalformedAudioError, producing no
partial buffer; an even-length input succeeds with a buffer of half the
input length. -/
theorem convert_odd_fails_even_succeeds (bytes : List Nat) :
    (bytes.length % 2 = 1 →
      convertUint8ArrayToInt16Array bytes =
        Except.error "MalformedAudioError") ∧
    (bytes.length % 2 = 0 →
      ∃ samples, convertUint8ArrayToInt16Array bytes = Except.ok samples ∧
        samples.length = bytes.length / 2) := by
  constructor
  · intro h
    unfold convertUint8ArrayToInt16Array
    rw [if_pos h]
  · intro h
    refine ⟨pairsToSamples bytes, ?_, pairsToSamples_length bytes⟩
    unfold convertUint8ArrayToInt16Array
    rw [if_neg (by omega)]

/-- Witness for C6 at the odd-length input [1, 2, 3] and the even-length
input [1, 0, 2, 0]. -/
theorem convert_odd_fails_even_succeeds_eval :
    convertUint8ArrayToInt16Array [1, 2, 3] =
      Except.error "MalformedAudioError" ∧
    ∃ samples, convertUint8ArrayToInt16Array [1, 0, 2, 0] =
      Except.ok samples ∧ samples.length = 2 :=
  ⟨(convert_odd_fails_even_succeeds [1, 2, 3]).1 (by decide),
   (convert_odd_fails_even_succeeds [1, 0, 2, 0]).2 (by decide)⟩

/-- C7: encoding an empty PcmBuffer with any positive sample rate and
channel count yields a WavContainer of exactly 44 bytes whose data-size
header fields equal 0: the data sub-chunk size field (bytes 40 to 43) is
0 and the RIFF total-size field (bytes 4 to 7) is 36 + 0. -/
theorem encodeWav_empty (R C : Nat) (hR : 0 < R) (hC : 0 < C) :
    ∃ w, encodeWav [] R C = Except.ok w ∧ w.length = 44 ∧
      w.drop 40 = [0, 0, 0, 0] ∧ (w.drop 4).take 4 = [36, 0, 0, 0] := by
  refine ⟨wavHeader 0 R C ++ pcmDataBytes [], ?_, ?_, ?_, ?_⟩
  · unfold encodeWav
    rw [if_neg (by omega)]
    rfl
  · simp [pcmDataBytes, wavHeader_length]
  · have hsplit : wavHeader 0 R C ++ pcmDataBytes [] =
        ([82, 73, 70, 70] ++ u32le 36 ++ [87, 65, 86, 69] ++
          [102, 109, 116, 32] ++ u32le 16 ++ u16le 1 ++ u16le C ++
          u32le R ++ u32le (R * C * 2) ++ u16le (C * 2) ++ u16le 16 ++
          [100, 97, 116, 97]) ++ u32le 0 := by
      simp [wavHeader, pcmDataBytes, u32le, u16le]
    rw [hsplit, List.drop_left' (by simp [u32le, u16le])]
    rfl
  · have hsplit2 : wavHeader 0 R C ++ pcmDataBytes [] =
        [82, 73, 70, 70] ++ (u32le 36 ++ ([87, 65, 86, 69] ++
          [102, 109, 116, 32] ++ u32le 16 ++ u16le 1 ++ u16le C ++
          u32le R ++ u32le (R * C * 2) ++ u16le (C * 2) ++ u16le 16 ++
          [100, 97, 116, 97] ++ u32le 0)) := by
      simp [wavHeader, pcmDataBytes, u32le, u16le]
    rw [hsplit2, List.drop_left' (by simp), List.take_left' (by simp [u32le])]
    rfl

/-- Witness for C7 at sample rate 24000 and channel count 1. -/
theorem encodeWav_empty_eval :
    ∃ w, encodeWav [] 24000 1 = Except.ok w ∧ w.length = 44 ∧
      w.drop 40 = [0, 0, 0, 0] ∧ (w.drop 4).take 4 = [36, 0, 0, 0] :=
  encodeWav_empty 24000 1 (by norm_num) (by norm_num)

/-- C3: playback normalization maps each PcmSample s in the range
-32768 to 32767 to s / 32768 in the half-open range from -1 inclusive to
1 exclusive; in particular -32768 maps to exactly -1 and 32767 maps to
32767/32768. -/
theorem normalizeSample_range (s : Int) (h1 : -32768 ≤ s) (h2 : s ≤ 32767) :
    normalizeSample s = (s : ℚ) / 32768 ∧
    -1 ≤ normalizeSample s ∧ normalizeSample s < 1 ∧
    normalizeSample (-32768) = -1 ∧
    normalizeSample 32767 = 32767 / 32768 := by
  refine ⟨rfl, ?_, ?_, by norm_num [normalizeSample],
    by norm_num [normalizeSample]⟩
  · rw [normalizeSample, le_div_iff₀ (by norm_num : (0 : ℚ) < 32768)]
    have hc : (-32768 : ℚ) ≤ (s : ℚ) := by exact_mod_cast h1
    linarith
  · rw [normalizeSample, div_lt_one (by norm_num : (0 : ℚ) < 32768)]
    have hc : (s : ℚ) ≤ 32767 := by exact_mod_cast h2
    linarith

/-- Witness for C3 at the sample 0. -/
theorem normalizeSample_range_eval :
    normalizeSample 0 = ((0 : Int) : ℚ) / 32768 ∧
    -1 ≤ normalizeSample 0 ∧ normalizeSample 0 < 1 ∧
    normalizeSample (-32768) = -1 ∧
    normalizeSample 32767 = 32767 / 32768 :=
  normalizeSample_range 0 (by norm_num) (by norm_num)

/-- Counterexample for C4: a concrete service failure is not propagated
unchanged — the catch block of generateSpeech replaces it with an Error
carrying a fixed message that differs from the original error value. -/
theorem generateSpeech_error_replaced :
    generateSpeech (Except.error "ServiceError") =
      Except.error genSpeechFailureMsg ∧
    genSpeechFailureMsg ≠ "ServiceError" :=
  ⟨rfl, by decide⟩

/-- C4 amended: every failure of the remote speech service call is
surfaced to the caller as a thrown replacement Error with the fixed
message of genSpeechFailureMsg — not the original error value — and the
single service call is never retried. -/
theorem generateSpeech_error_fixed (e : String) :
    generateSpeech (Except.error e) = Except.error genSpeechFailureMsg := rfl

/-- C8: when the inline audio data field of the response is absent the
function does not return a value (it yields the thrown error), and a
successful return always carries a non-empty base64 payload taken from
the response. -/
theorem generateSpeech_ok_unfold (r : GenContentResponse) :
    generateSpeech (Except.ok r) =
      match extractAudioData r with
      | none => Except.error genSpeechFailureMsg
      | some s =>
          if s = "" then Except.error genSpeechFailureMsg
          else Except.ok s := rfl

/-- C8: when the inline audio data field of the response is absent the
function does not return a value (it yields the thrown error), and a
successful return always carries a non-empty base64 payload taken from
the response. -/
theorem generateSpeech_requires_audio (r : GenContentResponse) :
    (extractAudioData r = none →
      generateSpeech (Except.ok r) = Except.error genSpeechFailureMsg) ∧
    (∀ s, generateSpeech (Except.ok r) = Except.ok s →
      s ≠ "" ∧ extractAudioData r = some s) := by
  constructor
  · intro h
    rw [generateSpeech_ok_unfold, h]
  · intro s hs
    cases hex : extractAudioData r with
    | none =>
      have hgen : generateSpeech (Except.ok r) =
          Except.error genSpeechFailureMsg := by
        rw [generateSpeech_ok_unfold, hex]
      rw [hgen] at hs
      exact Except.noConfusion hs
    | some t =>
      by_cases ht : t = ""
      · have hgen : generateSpeech (Except.ok r) =
            Except.error genSpeechFailureMsg := by
          rw [generateSpeech_ok_unfold, hex]
          exact if_pos ht
        rw [hgen] at hs
        exact Except.noConfusion hs
      · have hgen : generateSpeech (Except.ok r) = Except.ok t := by
          rw [generateSpeech_ok_unfold, hex]
          exact if_neg ht
        rw [hgen] at hs
        have hts : t = s := by injection hs
        have hsne : s ≠ "" := hts ▸ ht
        exact ⟨hsne, by rw [hts]⟩

/-- Witness for C8 at a response with no candidates and at a response
carrying the payload QUJD. -/
theorem generateSpeech_requires_audio_eval :
    generateSpeech (Except.ok ⟨[]⟩) = Except.error genSpeechFailureMsg ∧
    ("QUJD" ≠ "" ∧
      extractAudioData ⟨[⟨some ⟨[⟨some ⟨some "QUJD"⟩⟩]⟩⟩]⟩ =
        some "QUJD") :=
  ⟨(generateSpeech_requires_audio ⟨[]⟩).1 rfl,
   (generateSpeech_requires_audio
      ⟨[⟨some ⟨[⟨some ⟨some "QUJD"⟩⟩]⟩⟩]⟩).2 "QUJD" rfl⟩

theorem mapTranslationItem_fields (tls : List Language)
    (item : ParsedTranslationItem) :
    (mapTranslationItem tls item).languageCode = item.languageCode ∧
    (mapTranslationItem tls item).text = item.translatedText ∧
    (∀ lang, tls.find? (fun l => l.code == item.languageCode) = some lang →
      (mapTranslationItem tls item).languageName = lang.name) ∧
    (tls.find? (fun l => l.code == item.languageCode) = none →
      (mapTranslationItem tls item).languageName = item.languageCode) := by
  unfold mapTranslationItem
  cases hf : tls.find? (fun l => l.code == item.languageCode) with
  | some lang =>
    refine ⟨rfl, rfl, ?_, ?_⟩
    · intro lg hlg
      injection hlg with he
      rw [he]
    · intro hn
      exact Option.noConfusion hn
  | none =>
    refine ⟨rfl, rfl, ?_, ?_⟩
    · intro lg hlg
      exact Option.noConfusion hlg
    · intro _
      rfl

/-- C9: translateText produces one result per parsed item, keeping its
language code and translated text; the languageName of result i is the
name of the entry of targetLanguages whose code equals the returned
languageCode when one exists, and the returned languageCode itself when
none does — a code outside targetLanguages never makes the mapping
fail. -/
theorem translateText_languageName (tls : List Language)
    (items : List ParsedTranslationItem) :
    (translateTextResults tls items).length = items.length ∧
    ∀ (i : Nat) (h1 : i < items.length)
      (h2 : i < (translateTextResults tls items).length),
      ((translateTextResults tls items).get ⟨i, h2⟩).languageCode =
        (items.get ⟨i, h1⟩).languageCode ∧
      ((translateTextResults tls items).get ⟨i, h2⟩).text =
        (items.get ⟨i, h1⟩).translatedText ∧
      (∀ lang, tls.find?
          (fun l => l.code == (items.get ⟨i, h1⟩).languageCode) =
            some lang →
        ((translateTextResults tls items).get ⟨i, h2⟩).languageName =
          lang.name) ∧
      (tls.find?
          (fun l => l.code == (items.get ⟨i, h1⟩).languageCode) = none →
        ((translateTextResults tls items).get ⟨i, h2⟩).languageName =
          (items.get ⟨i, h1⟩).languageCode) := by
  refine ⟨by simp [translateTextResults], ?_⟩
  intro i h1 h2
  have hget : (translateTextResults tls items).get ⟨i, h2⟩ =
      mapTranslationItem tls (items.get ⟨i, h1⟩) := by
    simp [translateTextResults, List.get_eq_getElem]
  rw [hget]
  exact mapTranslationItem_fields tls (items.get ⟨i, h1⟩)

/-- Witness for C9 at one matching and one unmatched language code. -/
theorem translateText_languageName_eval :
    (translateTextResults [⟨"en", "Engleski", "English"⟩]
        [⟨"en", "Hello"⟩, ⟨"xx", "Zzz"⟩]).length = 2 ∧
    ((translateTextResults [⟨"en", "Engleski", "English"⟩]
        [⟨"en", "Hello"⟩, ⟨"xx", "Zzz"⟩]).get
      ⟨1, by decide⟩).languageName =
      (([⟨"en", "Hello"⟩, ⟨"xx", "Zzz"⟩] :
          List ParsedTranslationItem).get ⟨1, by decide⟩).languageCode := by
  have h := translateText_languageName [⟨"en", "Engleski", "English"⟩]
    [⟨"en", "Hello"⟩, ⟨"xx", "Zzz"⟩]
  exact ⟨h.1, (h.2 1 (by decide) (by decide)).2.2.2 (by decide)⟩

theorem head?_dropWhile_not {α : Type} (p : α → Bool) :
    ∀ (l : List α) (c : α), (l.dropWhile p).head? = some c → p c = false
  | [], c, h => by simp [List.dropWhile] at h
  | a :: as, c, h => by
    rw [List.dropWhile_cons] at h
    by_cases hp : p a
    · rw [if_pos hp] at h
      exact head?_dropWhile_not p as c h
    · rw [if_neg hp] at h
      simp only [List.head?_cons, Option.some.injEq] at h
      rw [← h]
      simpa using hp

theorem jsTrim_spec (cs : List Char) :
    (∃ pre post, cs = pre ++ jsTrim cs ++ post ∧
        (∀ c ∈ pre, isJsWhitespace c = true) ∧
        (∀ c ∈ post, isJsWhitespace c = true)) ∧
    (∀ c, (jsTrim cs).head? = some c → isJsWhitespace c = false) ∧
    (∀ c, (jsTrim cs).getLast? = some c → isJsWhitespace c = false) := by
  have hsplit1 : cs.takeWhile isJsWhitespace ++
      cs.dropWhile isJsWhitespace = cs :=
    List.takeWhile_append_dropWhile isJsWhitespace cs
  have hsplit2 : (cs.dropWhile isJsWhitespace).reverse.takeWhile
        isJsWhitespace ++
      (cs.dropWhile isJsWhitespace).reverse.dropWhile isJsWhitespace =
      (cs.dropWhile isJsWhitespace).reverse :=
    List.takeWhile_append_dropWhile isJsWhitespace _
  have hl1eq : cs.dropWhile isJsWhitespace =
      jsTrim cs ++ ((cs.dropWhile isJsWhitespace).reverse.takeWhile
        isJsWhitespace).reverse := by
    have h := congrArg List.reverse hsplit2
    rw [List.reverse_append, List.reverse_reverse] at h
    exact h.symm
  refine ⟨⟨cs.takeWhile isJsWhitespace,
      ((cs.dropWhile isJsWhitespace).reverse.takeWhile
        isJsWhitespace).reverse, ?_, ?_, ?_⟩, ?_, ?_⟩
  · conv_lhs => rw [← hsplit1, hl1eq]
    simp [List.append_assoc]
  · intro c hc
    exact List.mem_takeWhile_imp hc
  · intro c hc
    rw [List.mem_reverse] at hc
    exact List.mem_takeWhile_imp hc
  · intro c hc
    rw [jsTrim, List.head?_reverse] at hc
    have hne : (cs.dropWhile isJsWhitespace).reverse.dropWhile
        isJsWhitespace ≠ [] := by
      intro h0
      rw [h0] at hc
      exact Option.noConfusion hc
    have hlast : ((cs.dropWhile isJsWhitespace).reverse.dropWhile
          isJsWhitespace).getLast? =
        (cs.dropWhile isJsWhitespace).reverse.getLast? := by
      conv_rhs => rw [← hsplit2]
      rw [List.getLast?_append_of_ne_nil _ hne]
    rw [hlast, List.getLast?_reverse] at hc
    exact head?_dropWhile_not isJsWhitespace cs c hc
  · intro c hc
    rw [jsTrim, List.getLast?_reverse] at hc
    exact head?_dropWhile_not isJsWhitespace _ c hc

/-- C10: the string returned by a successful transcription is the
response text of the service with leading and trailing whitespace
removed, and it never starts or ends with whitespace. -/
theorem transcribeAudio_trimmed (responseText : String) :
    (∃ pre post, responseText.data =
        pre ++ (transcribeAudio responseText).data ++ post ∧
        (∀ c ∈ pre, isJsWhitespace c = true) ∧
        (∀ c ∈ post, isJsWhitespace c = true)) ∧
    (∀ c, (transcribeAudio responseText).data.head? = some c →
      isJsWhitespace c = false) ∧
    (∀ c, (transcribeAudio responseText).data.getLast? = some c →
      isJsWhitespace c = false) :=
  jsTrim_spec responseText.data

/-- Witness for C10 at the response text consisting of a space, the
letter a and a space. -/
theorem transcribeAudio_trimmed_eval :
    isJsWhitespace 'a' = false ∧
    (∃ pre post, (" a " : String).data =
        pre ++ (transcribeAudio " a ").data ++ post ∧
        (∀ c ∈ pre, isJsWhitespace c = true) ∧
        (∀ c ∈ post, isJsWhitespace c = true)) :=
  ⟨(transcribeAudio_trimmed " a ").2.1 'a' (by decide), (transcribeAudio_trimmed " a ").1⟩

end AudioApp
